import Mathlib

/-!
Shallow embedding of the Ripple (XRP) bridge and the libcore transaction
builders (bitcoin / ethereum families) of this repository, together with
proofs about the synchronization merge, pending-operation reconciliation,
account discovery, transaction status validation, family dispatch and the
ERC20 transfer payload encoding.

Conventions of the embedding:
* BigNumber values are modelled as `Int` (the code only ever handles integral
  amounts in these code paths); a value that may be `NaN` is an `Option Int`
  with `none` for `NaN`.
* JavaScript `Date` values are modelled as `Int` timestamps (the sort
  comparator subtracts them).
* Fields that may hold `null`/`undefined` are `Option`s.
* Thrown JavaScript errors are the `JsError` inductive; a function that can
  throw returns `Except JsError`.
* `Array.prototype.sort` is required by the language to be stable, and a
  stable sort is uniquely determined by the comparator, so it is modelled by
  `List.insertionSort` (stable) over the comparator's total preorder.
* The cooperative cancellation flag polled by the builders is modelled by the
  index of the first `isCancelled()` poll that returns `true` (`none` when
  the build is never cancelled); a cancelled build returns `Except.ok none`
  just as the source returns `undefined`.
-/

namespace RippleBridge

/-- Direction of an operation, `"IN"` or `"OUT"` in the source. -/
inductive OpType
  | IN
  | OUT
deriving DecidableEq, Repr

/-- String rendering of an operation type, used to build operation ids. -/
def opTypeString : OpType → String
  | OpType.IN => "IN"
  | OpType.OUT => "OUT"

/-- The `Operation` record of the repository (`types`), restricted to the
fields this file reasons about.  `transactionSequenceNumber` is optional in
the type and tested for truthiness by the code, hence `Option Nat`;
`fee` may be `NaN` (`parseAPIValue` failure), hence `Option Int`. -/
structure Operation where
  id : String
  hash : String
  accountId : String
  type : OpType
  value : Int
  fee : Option Int
  blockHeight : Option Int
  senders : List String
  recipients : List String
  date : Int
  transactionSequenceNumber : Option Nat
  extraTag : Option Nat
deriving DecidableEq, Repr

/-- The total preorder the sort comparator `(a, b) => b.date - a.date`
induces: `a` may precede `b` exactly when `b.date ≤ a.date`
(descending by date). -/
def opDateGe (a b : Operation) : Prop := b.date ≤ a.date

instance : DecidableRel opDateGe := fun a b =>
  inferInstanceAs (Decidable (b.date ≤ a.date))

instance : IsTotal Operation opDateGe :=
  ⟨fun a b => le_total b.date a.date⟩

instance : IsTrans Operation opDateGe :=
  ⟨fun _ _ _ hab hbc => le_trans hbc hab⟩

/-- `mergeOps` (sync merge): keep every existing operation, append the newly
fetched ones whose id does not already occur among the existing ids, and
re-sort the union descending by date with the stable sort. -/
def mergeOps (existing : List Operation) (newFetched : List Operation) : List Operation :=
  let ids := existing.map (fun o => o.id)
  let all := existing ++ newFetched.filter (fun o => !(ids.contains o.id))
  all.insertionSort opDateGe

/-- JavaScript truthiness of an optional sequence number: `undefined` and
`0` are falsy, every other number is truthy. -/
def tsnTruthy : Option Nat → Bool
  | none => false
  | some n => n != 0

/-- JavaScript `>` on two possibly-undefined numbers: comparisons involving
`undefined` are `false`. -/
def jsGtNat : Option Nat → Option Nat → Bool
  | some x, some y => decide (y < x)
  | _, _ => false

/-- The predicate of the pending-operation filter inside `startSync`
(`startSync`, lines 749-756): a pending operation `oo` is kept exactly when
no merged operation has its hash, the merged list has a first (newest)
element `last`, both sequence numbers are truthy, and `oo`'s sequence number
is strictly greater than `last`'s. -/
def keptPending (operations : List Operation) (oo : Operation) : Bool :=
  !(operations.any (fun op => oo.hash == op.hash)) &&
    (match operations.head? with
     | none => false
     | some last =>
       tsnTruthy last.transactionSequenceNumber &&
         tsnTruthy oo.transactionSequenceNumber &&
         jsGtNat oo.transactionSequenceNumber last.transactionSequenceNumber)

/-- The drop condition in the words of the specification sentence behind
claim C3 (modelled from the spec, for comparison with `keptPending`):
dropped iff the hash appears among the merged confirmed operations, or its
sequence number is not strictly greater than the newest confirmed
operation's sequence number. -/
def specDropCondition (operations : List Operation) (oo : Operation) : Bool :=
  (operations.any (fun op => oo.hash == op.hash)) ||
    (match operations.head? with
     | none => false
     | some last =>
       !(jsGtNat oo.transactionSequenceNumber last.transactionSequenceNumber))

/-- The `Account` record, restricted to the fields the Ripple bridge
constructs and updates. -/
structure Account where
  id : String
  seedIdentifier : String
  derivationMode : String
  name : String
  freshAddress : String
  freshAddressPath : String
  balance : Int
  blockHeight : Int
  index : Nat
  operations : List Operation
  pendingOperations : List Operation
  lastSyncDate : Int
deriving DecidableEq, Repr

/-- Outcome part of a remote Ripple transaction (`Tx.outcome`): `fee` is the
`parseAPIValue` result (`none` for `NaN`), `deliveredAmount` is optional. -/
structure TxOutcome where
  fee : Option Int
  deliveredAmount : Option Int
  ledgerVersion : Int
  timestamp : Int
deriving DecidableEq, Repr

/-- A remote Ripple transaction (`Tx`), restricted to the fields
`txToOperation` reads. -/
structure Tx where
  id : String
  sequence : Nat
  outcome : TxOutcome
  sourceAddress : String
  destinationAddress : String
  destinationTag : Option Nat
deriving DecidableEq, Repr

/-- `txToOperation`: converts a remote transaction into an `Operation` for
the given account.  Direction is `OUT` exactly when the source address is
the account's fresh address; for `OUT` operations the fee is added to the
delivered value unless the fee parsed to `NaN`. -/
def txToOperation (account : Account) (tx : Tx) : Operation :=
  let type := if tx.sourceAddress = account.freshAddress then OpType.OUT else OpType.IN
  let value0 := tx.outcome.deliveredAmount.getD 0
  let value :=
    if type = OpType.OUT then
      match tx.outcome.fee with
      | some f => value0 + f
      | none => value0
    else value0
  { id := account.id ++ "-" ++ tx.id ++ "-" ++ opTypeString type
    hash := tx.id
    accountId := account.id
    type := type
    value := value
    fee := tx.outcome.fee
    blockHeight := some tx.outcome.ledgerVersion
    senders := [tx.sourceAddress]
    recipients := [tx.destinationAddress]
    date := tx.outcome.timestamp
    transactionSequenceNumber := some tx.sequence
    extraTag := tx.destinationTag }

/-- The state-update function `startSync` emits when `getAccountInfo` failed
with `actNotFound` (the account has no on-chain footprint): spread the old
account and replace only `lastSyncDate`. -/
def startSyncNotFoundUpdate (now : Int) (a : Account) : Account :=
  { a with lastSyncDate := now }

/-- The state-update function `startSync` emits when the account exists:
convert the fetched transactions, merge them into the operations, filter the
pending operations with `keptPending`, and update balance, block height and
last sync date. -/
def startSyncFoundUpdate (balance : Int) (maxLedgerVersion : Int)
    (transactions : List Tx) (now : Int) (a : Account) : Account :=
  let newOps := transactions.map (txToOperation a)
  let operations := mergeOps a.operations newOps
  let pendingOperations := a.pendingOperations.filter (fun oo => keptPending operations oo)
  { a with
    balance := balance
    operations := operations
    pendingOperations := pendingOperations
    blockHeight := maxLedgerVersion
    lastSyncDate := now }

/-- One observable step of the device scan loop in `scanAccountsOnDevice`:
an index is probed (address derived on the device and looked up on the
chain), or an account event is emitted with its balance. -/
inductive ScanStep
  | probe (index : Nat)
  | emitPlaceholder (index : Nat) (balance : Int)
  | emitDiscovered (index : Nat) (balance : Int)
deriving DecidableEq, Repr

/-- The inner index loop of `scanAccountsOnDevice` for one derivation mode.
`accountInfo index` is `none` when `getAccountInfo` failed with
`actNotFound`; in that case a placeholder account with balance `0` is
emitted only when the derivation mode is the canonical empty string, and the
loop breaks.  Unsupported indices are skipped.  `fuel` counts the remaining
indices up to `stopAt`. -/
def scanIndices (derivationMode : String) (supportsIndex : Nat → Bool)
    (accountInfo : Nat → Option Int) : Nat → Nat → List ScanStep
  | _, 0 => []
  | index, fuel + 1 =>
    if supportsIndex index then
      ScanStep.probe index ::
        (match accountInfo index with
         | none =>
           if derivationMode = "" then [ScanStep.emitPlaceholder index 0] else []
         | some balance =>
           ScanStep.emitDiscovered index balance ::
             scanIndices derivationMode supportsIndex accountInfo (index + 1) fuel)
    else scanIndices derivationMode supportsIndex accountInfo (index + 1) fuel

/-- The per-mode scan: iterable derivation modes probe indices `0..254`
(`stopAt = 255`), non-iterable ones only index `0` (`stopAt = 1`). -/
def scanMode (derivationMode : String) (isIterable : Bool)
    (supportsIndex : Nat → Bool) (accountInfo : Nat → Option Int) : List ScanStep :=
  scanIndices derivationMode supportsIndex accountInfo 0 (if isIterable then 255 else 1)

/-- The structured errors `getTransactionStatus` can set. -/
inductive TxErr
  | feeNotLoaded
  | feeRequired
  | notEnoughBalance
  | notEnoughBalanceBecauseDestinationNotCreated
  | recipientRequired
  | invalidAddressBecauseDestinationIsAlsoSource
  | invalidAddress
deriving DecidableEq, Repr

/-- Result of `getTransactionStatus`: the `errors` map (keys `fee`, `amount`,
`recipient`), the `warnings` map (key `feeTooHigh`), and the computed
amounts. -/
structure TransactionStatus where
  feeError : Option TxErr
  amountError : Option TxErr
  recipientError : Option TxErr
  feeTooHighWarning : Bool
  estimatedFees : Int
  amount : Int
  totalSpent : Int
deriving DecidableEq, Repr

/-- `getTransactionStatus` of the Ripple account bridge.  `fee` is `none`
when `t.fee` is `null` (a BigNumber object is always truthy, so only `null`
counts as missing); `recipientIsNew` is the cached `recipientIsNew` result
and `recipientValid` whether `bs58check.decode` succeeds on the
recipient. -/
def getTransactionStatus (balance : Int) (reserveBaseXRP : Int)
    (freshAddress : String) (fee : Option Int) (amount : Int)
    (recipient : String) (recipientIsNew : Bool) (recipientValid : Bool) :
    TransactionStatus :=
  let estimatedFees := fee.getD 0
  let totalSpent := amount + estimatedFees
  let feeTooHighWarning := decide (0 < amount) && decide (amount < estimatedFees * 10)
  let feeAmountErrors : Option TxErr × Option TxErr :=
    match fee with
    | none => (some TxErr.feeNotLoaded, none)
    | some f =>
      if f = 0 then (some TxErr.feeRequired, none)
      else if balance - reserveBaseXRP < totalSpent then
        (none, some TxErr.notEnoughBalance)
      else if recipient ≠ "" ∧ recipientIsNew = true ∧ amount < reserveBaseXRP then
        (none, some TxErr.notEnoughBalanceBecauseDestinationNotCreated)
      else (none, none)
  let recipientError :=
    if recipient = "" then some TxErr.recipientRequired
    else if freshAddress = recipient then
      some TxErr.invalidAddressBecauseDestinationIsAlsoSource
    else if recipientValid then none
    else some TxErr.invalidAddress
  { feeError := feeAmountErrors.1
    amountError := feeAmountErrors.2
    recipientError := recipientError
    feeTooHighWarning := feeTooHighWarning
    estimatedFees := estimatedFees
    amount := amount
    totalSpent := totalSpent }

/-- A JavaScript value that the `Transaction` type declares as
`BigNumber | string`. -/
inductive BigOrStr
  | big (n : Int)
  | str (s : String)
deriving DecidableEq, Repr

/-- JavaScript truthiness of an optional `BigNumber | string` field:
`null`/`undefined` is falsy, a BigNumber object is always truthy, a string
is truthy exactly when non-empty. -/
def truthyF : Option BigOrStr → Bool
  | none => false
  | some (BigOrStr.big _) => true
  | some (BigOrStr.str s) => s != ""

/-- One decimal digit of a character, `none` for non-digits. -/
def decDigit? (c : Char) : Option Nat :=
  if '0' ≤ c ∧ c ≤ '9' then some (c.toNat - '0'.toNat) else none

/-- Accumulating parser for an all-digits string. -/
def parseDecAux : List Char → Nat → Option Nat
  | [], acc => some acc
  | c :: cs, acc =>
    match decDigit? c with
    | some d => parseDecAux cs (acc * 10 + d)
    | none => none

/-- Parse a non-negative integer decimal string; anything else (including
the empty string) yields `none`, modelling a `NaN` BigNumber.  Only plain
integral digit strings are modelled, which covers every string these code
paths feed to the `BigNumber` constructor. -/
def parseDec? (s : String) : Option Nat :=
  match s.data with
  | [] => none
  | c :: cs => parseDecAux (c :: cs) 0

/-- The value of `BigNumber(x)` on an optional `BigNumber | string` field:
`none` models `NaN` (from `undefined` or a non-numeric string). -/
def jsToBigNum : Option BigOrStr → Option Int
  | none => none
  | some (BigOrStr.big n) => some n
  | some (BigOrStr.str s) => (parseDec? s).map (fun n => (n : Int))

/-- Errors a builder can throw.  `errorMessage` is a plain `new Error(msg)`,
`invariantViolation` an `invariant(cond, msg)` failure, `rangeError` the
`Buffer.alloc` failure on a negative size, and `typeErrorNotAFunction` the
failure of calling `undefined` (unknown family in `byFamily`).
`encodingError` and `unsupportedFamily` are the typed errors named by the
specification; this code never constructs them. -/
inductive JsError
  | invalidAddress
  | feeNotLoaded
  | errorMessage (msg : String)
  | invariantViolation (msg : String)
  | rangeError
  | typeErrorNotAFunction
  | encodingError
  | unsupportedFamily
deriving DecidableEq, Repr

instance {ε α : Type} [DecidableEq ε] [DecidableEq α] : DecidableEq (Except ε α) :=
  fun x y =>
    match x, y with
    | Except.ok a, Except.ok b =>
      if h : a = b then isTrue (by rw [h])
      else isFalse (by intro hh; cases hh; exact h rfl)
    | Except.error a, Except.error b =>
      if h : a = b then isTrue (by rw [h])
      else isFalse (by intro hh; cases hh; exact h rfl)
    | Except.ok _, Except.error _ => isFalse (fun hh => Except.noConfusion hh)
    | Except.error _, Except.ok _ => isFalse (fun hh => Except.noConfusion hh)

/-- The 4-byte ERC20 `transfer(address,uint256)` selector `a9059cbb`. -/
def ethereumTransferMethodID : List Nat := [0xa9, 0x05, 0x9c, 0xbb]

/-- One hexadecimal nibble of a character, `none` for non-hex characters. -/
def hexNibble? (c : Char) : Option Nat :=
  if '0' ≤ c ∧ c ≤ '9' then some (c.toNat - '0'.toNat)
  else if 'a' ≤ c ∧ c ≤ 'f' then some (c.toNat - 'a'.toNat + 10)
  else if 'A' ≤ c ∧ c ≤ 'F' then some (c.toNat - 'A'.toNat + 10)
  else none

/-- `Buffer.from(·, "hex")`: decode pairs of hex characters into bytes,
stopping at the first invalid pair and dropping a trailing lone
character. -/
def decodeHex : List Char → List Nat
  | a :: b :: rest =>
    match hexNibble? a, hexNibble? b with
    | some x, some y => (x * 16 + y) :: decodeHex rest
    | _, _ => []
  | _ => []

/-- `recipient.replace("0x", "")`: remove the first occurrence of the
substring `0x`. -/
def strip0x : List Char → List Char
  | '0' :: 'x' :: rest => rest
  | c :: rest => c :: strip0x rest
  | [] => []

/-- Big-endian base-16 digits of `n` (fuel-driven so that the kernel can
evaluate it); `hexDigits` supplies sufficient fuel. -/
def hexDigitsAux : Nat → Nat → List Nat
  | 0, _ => []
  | fuel + 1, n => if n < 16 then [n] else hexDigitsAux fuel (n / 16) ++ [n % 16]

/-- `n.toString(16)` as a digit list: big-endian base-16 digits with no
leading zero, and `[0]` for `0`. -/
def hexDigits (n : Nat) : List Nat := hexDigitsAux (n + 1) n

/-- Prepend a zero nibble when the hex digit count is odd
(`amountHex.length % 2 === 0 ? amountHex : "0" + amountHex`). -/
def padHexEven (h : List Nat) : List Nat :=
  if h.length % 2 = 0 then h else 0 :: h

/-- Combine an even-length nibble list into bytes, two nibbles per byte. -/
def hexPairsToBytes : List Nat → List Nat
  | a :: b :: rest => (a * 16 + b) :: hexPairsToBytes rest
  | _ => []

/-- `Buffer.from(amountHex, "hex")` for the token amount: `none` models the
`NaN` BigNumber whose `toString(16)` is `"NaN"` and decodes to no bytes, and
a negative amount renders with a leading `-` which likewise decodes to no
bytes. -/
def amountBuf : Option Int → List Nat
  | none => []
  | some n => if 0 ≤ n then hexPairsToBytes (padHexEven (hexDigits n.toNat)) else []

/-- `Buffer.concat([Buffer.alloc(32 - amountBuf.length), amountBuf])`: the
32-byte big-endian amount field; `Buffer.alloc` throws a range error when
the amount needs more than 32 bytes. -/
def amount256 (amount : Option Int) : Except JsError (List Nat) :=
  let buf := amountBuf amount
  if buf.length ≤ 32 then Except.ok (List.replicate (32 - buf.length) 0 ++ buf)
  else Except.error JsError.rangeError

/-- The ERC20 transfer call data built by the token branch of the `ethereum`
builder: the recipient (hex-decoded after removing `0x`) is left-padded with
twelve zero bytes and must give a 32-byte field, enforced by
`invariant(to256.length === 32, "recipient is invalid")`; the payload is the
selector, the padded recipient and the 32-byte amount. -/
def tokenTransferData (recipient : String) (amount : Option Int) :
    Except JsError (List Nat) :=
  let to256 := List.replicate 12 0 ++ decodeHex (strip0x recipient.data)
  if to256.length = 32 then
    match amount256 amount with
    | Except.ok a256 => Except.ok (ethereumTransferMethodID ++ to256 ++ a256)
    | Except.error e => Except.error e
  else Except.error (JsError.invariantViolation "recipient is invalid")

/-- The draft `Transaction` type of the builders (`src`, lines 17-26). -/
structure TransactionM where
  recipient : String
  amount : Option BigOrStr
  useAllAmount : Bool
  feePerByte : Option BigOrStr
  gasPrice : Option BigOrStr
  gasLimit : Option BigOrStr
deriving DecidableEq, Repr

/-- The token account the ethereum builder may target. -/
structure TokenAccountM where
  balance : Int
  contractAddress : String
deriving DecidableEq, Repr

/-- Inputs of a builder call: the account's currency family, whether
`isValidRecipient` returned `null` (valid), the optional token account, the
draft transaction, the `isPartial` flag, and the index of the first
`isCancelled()` poll that reports cancellation (`none` when never
cancelled). -/
structure BuildOpts where
  family : String
  recipientValid : Bool
  tokenAccount : Option TokenAccountM
  transaction : TransactionM
  isPartial : Bool
  cancelAt : Option Nat
deriving DecidableEq, Repr

/-- Whether the `k`-th `isCancelled()` poll observes cancellation:
cancellation is monotone once requested. -/
def polled (cancelAt : Option Nat) (k : Nat) : Bool :=
  match cancelAt with
  | none => false
  | some i => decide (i ≤ k)

/-- The bitcoin-like transaction assembled by the builder. -/
structure BtcTx where
  wipeTo : Option String
  sendTo : Option (Option Int × String)
  pickedRange : Nat × Nat
  feesPerByte : Option Int
deriving DecidableEq, Repr

/-- Tail of the bitcoin builder after the amount branch: `pickInputs`,
`setFeesPerByte` and `build`, each followed by a cancellation poll. -/
def bitcoinRest (cancelAt : Option Nat) (k : Nat) (tx : BtcTx) :
    Except JsError (Option BtcTx) :=
  if polled cancelAt k then Except.ok none
  else if polled cancelAt (k + 1) then Except.ok none
  else if polled cancelAt (k + 2) then Except.ok none
  else Except.ok (some tx)

/-- The `bitcoin` builder: recipient validation, fee truthiness check, then
the wipe/send branch and the common tail, returning `none` on
cancellation. -/
def bitcoin (opts : BuildOpts) : Except JsError (Option BtcTx) :=
  let t := opts.transaction
  if !opts.recipientValid then Except.error JsError.invalidAddress
  else if !truthyF t.feePerByte then Except.error JsError.feeNotLoaded
  else
    let fees := jsToBigNum t.feePerByte
    if polled opts.cancelAt 0 then Except.ok none
    else if polled opts.cancelAt 1 then Except.ok none
    else if t.useAllAmount then
      if polled opts.cancelAt 2 then Except.ok none
      else
        bitcoinRest opts.cancelAt 3
          { wipeTo := some t.recipient
            sendTo := none
            pickedRange := (0, 0xffffff)
            feesPerByte := fees }
    else if !truthyF t.amount then Except.error (JsError.errorMessage "amount is missing")
    else
      let amount := jsToBigNum t.amount
      if polled opts.cancelAt 2 then Except.ok none
      else if polled opts.cancelAt 3 then Except.ok none
      else
        bitcoinRest opts.cancelAt 4
          { wipeTo := none
            sendTo := some (amount, t.recipient)
            pickedRange := (0, 0xffffff)
            feesPerByte := fees }

/-- The ethereum-like transaction assembled by the builder. -/
structure EthTx where
  inputData : Option (List Nat)
  wipeTo : Option String
  sendTo : Option (Option Int × String)
  gasLimit : Option Int
  gasPrice : Option Int
deriving DecidableEq, Repr

/-- Tail of the ethereum builder: `setGasLimit`, `setGasPrice` and `build`,
each followed by a cancellation poll. -/
def ethereumRest (cancelAt : Option Nat) (k : Nat) (tx : EthTx) :
    Except JsError (Option EthTx) :=
  if polled cancelAt k then Except.ok none
  else if polled cancelAt (k + 1) then Except.ok none
  else if polled cancelAt (k + 2) then Except.ok none
  else Except.ok (some tx)

/-- The token branch of the `ethereum` builder (source lines 146-174): the
amount is the full token balance under `useAllAmount` and the requested
amount otherwise; the transfer call data is set as input data and a
zero-valued call is directed at the token contract address. -/
def ethereumTokenBranch (cancelAt : Option Nat) (ta : TokenAccountM)
    (t : TransactionM) (gasLimitAmount gasPriceAmount : Option Int) :
    Except JsError (Option EthTx) :=
  let amount : Option Int :=
    if t.useAllAmount then some ta.balance else jsToBigNum t.amount
  match tokenTransferData t.recipient amount with
  | Except.error e => Except.error e
  | Except.ok data =>
    ethereumRest cancelAt 2
      { inputData := some data
        wipeTo := none
        sendTo := some (some 0, ta.contractAddress)
        gasLimit := gasLimitAmount
        gasPrice := gasPriceAmount }

/-- The `ethereum` builder: recipient validation, gas truthiness check, then
either the token branch (transfer call data directed at the token contract
with zero native value) or the native wipe/send branch, and the common
tail. -/
def ethereum (opts : BuildOpts) : Except JsError (Option EthTx) :=
  let t := opts.transaction
  if !opts.recipientValid then Except.error JsError.invalidAddress
  else if !truthyF t.gasPrice || !truthyF t.gasLimit then Except.error JsError.feeNotLoaded
  else
    let gasPriceAmount := jsToBigNum t.gasPrice
    let gasLimitAmount := jsToBigNum t.gasLimit
    if polled opts.cancelAt 0 then Except.ok none
    else if polled opts.cancelAt 1 then Except.ok none
    else
      match opts.tokenAccount with
      | some ta => ethereumTokenBranch opts.cancelAt ta t gasLimitAmount gasPriceAmount
      | none =>
        if t.useAllAmount then
          if polled opts.cancelAt 2 then Except.ok none
          else
            ethereumRest opts.cancelAt 3
              { inputData := none
                wipeTo := some t.recipient
                sendTo := none
                gasLimit := gasLimitAmount
                gasPrice := gasPriceAmount }
        else if !truthyF t.amount then Except.error (JsError.errorMessage "amount is missing")
        else
          let amount := jsToBigNum t.amount
          if polled opts.cancelAt 2 then Except.ok none
          else if polled opts.cancelAt 3 then Except.ok none
          else
            ethereumRest opts.cancelAt 4
              { inputData := none
                wipeTo := none
                sendTo := some (amount, t.recipient)
                gasLimit := gasLimitAmount
                gasPrice := gasPriceAmount }

/-- The registered family builders. -/
inductive FamilyBuilder
  | bitcoinFamily
  | ethereumFamily
deriving DecidableEq, Repr

/-- The `byFamily` lookup object: a plain property access, `none` for any
family that is not a key. -/
def byFamily (family : String) : Option FamilyBuilder :=
  if family = "bitcoin" then some FamilyBuilder.bitcoinFamily
  else if family = "ethereum" then some FamilyBuilder.ethereumFamily
  else none

/-- Sample confirmed outgoing operation used as concrete input. -/
def wOp1 : Operation :=
  { id := "acc-h1-OUT"
    hash := "h1"
    accountId := "acc"
    type := OpType.OUT
    value := 30
    fee := some 1
    blockHeight := some 5
    senders := ["s1"]
    recipients := ["r1"]
    date := 20
    transactionSequenceNumber := some 2
    extraTag := none }

/-- Sample confirmed incoming operation used as concrete input. -/
def wOp2 : Operation :=
  { id := "acc-h2-IN"
    hash := "h2"
    accountId := "acc"
    type := OpType.IN
    value := 7
    fee := some 1
    blockHeight := some 4
    senders := ["s2"]
    recipients := ["r2"]
    date := 10
    transactionSequenceNumber := some 3
    extraTag := none }

/-- Sample operation that a remote batch repeats twice. -/
def cDupOp : Operation :=
  { id := "acc-h3-IN"
    hash := "h3"
    accountId := "acc"
    type := OpType.IN
    value := 5
    fee := some 1
    blockHeight := some 9
    senders := ["s3"]
    recipients := ["r3"]
    date := 15
    transactionSequenceNumber := some 4
    extraTag := none }

/-- Sample confirmed operation whose sequence number is zero. -/
def cConfirmedTsn0 : Operation :=
  { id := "acc-h4-IN"
    hash := "h4"
    accountId := "acc"
    type := OpType.IN
    value := 5
    fee := some 1
    blockHeight := some 9
    senders := ["s4"]
    recipients := ["r4"]
    date := 40
    transactionSequenceNumber := some 0
    extraTag := none }

/-- Sample pending operation with sequence number 5. -/
def cPending5 : Operation :=
  { id := "acc-h5-OUT"
    hash := "h5"
    accountId := "acc"
    type := OpType.OUT
    value := 5
    fee := some 1
    blockHeight := none
    senders := ["s5"]
    recipients := ["r5"]
    date := 41
    transactionSequenceNumber := some 5
    extraTag := none }

/-- Sample account used as concrete input. -/
def wAccount : Account :=
  { id := "acc"
    seedIdentifier := "seed"
    derivationMode := ""
    name := "XRP 1"
    freshAddress := "rFresh"
    freshAddressPath := "44h/144h/0h/0/0"
    balance := 100
    blockHeight := 42
    index := 0
    operations := [wOp1]
    pendingOperations := [cPending5]
    lastSyncDate := 0 }

/-- Sample draft transaction with ordinary nonzero fee fields. -/
def cTxDraft : TransactionM :=
  { recipient := "rDest"
    amount := some (BigOrStr.big 10)
    useAllAmount := false
    feePerByte := some (BigOrStr.big 2)
    gasPrice := some (BigOrStr.big 3)
    gasLimit := some (BigOrStr.big 21000) }

/-- Builder inputs whose account family is the unregistered `ripple`. -/
def cRippleOpts : BuildOpts :=
  { family := "ripple"
    recipientValid := true
    tokenAccount := none
    transaction := cTxDraft
    isPartial := false
    cancelAt := none }

/-- Builder inputs for the bitcoin family whose `feePerByte` is the
BigNumber zero. -/
def cZeroFeeOpts : BuildOpts :=
  { family := "bitcoin"
    recipientValid := true
    tokenAccount := none
    transaction := { cTxDraft with feePerByte := some (BigOrStr.big 0) }
    isPartial := false
    cancelAt := none }

/-- Builder inputs for the ethereum family whose gas price and gas limit are
the BigNumber zero. -/
def cZeroGasOpts : BuildOpts :=
  { family := "ethereum"
    recipientValid := true
    tokenAccount := none
    transaction :=
      { cTxDraft with
        gasPrice := some (BigOrStr.big 0)
        gasLimit := some (BigOrStr.big 0) }
    isPartial := false
    cancelAt := none }

/-- A 20-byte (40 hex digit) recipient address with `0x` prefix. -/
def cRecipient20 : String := "0x00112233445566778899aabbccddeeff00112233"

/-- A 21-byte (42 hex digit) recipient address with `0x` prefix. -/
def cRecipient21 : String := "0x00112233445566778899aabbccddeeff0011223344"

/-- Builder inputs for an ethereum token transfer of amount 255 to the
20-byte recipient. -/
def cTokenOpts : BuildOpts :=
  { family := "ethereum"
    recipientValid := true
    tokenAccount := some { balance := 500, contractAddress := "0xC0" }
    transaction :=
      { recipient := cRecipient20
        amount := some (BigOrStr.big 255)
        useAllAmount := false
        feePerByte := none
        gasPrice := some (BigOrStr.big 3)
        gasLimit := some (BigOrStr.big 21000) }
    isPartial := false
    cancelAt := none }

/-- A built transaction of either family. -/
inductive BuiltTx
  | btc (tx : BtcTx)
  | eth (tx : EthTx)
deriving DecidableEq, Repr

/-- The default export `opts => byFamily[opts.account.currency.family](opts)`:
when the family is not a key of `byFamily` the lookup yields `undefined` and
calling it throws a TypeError. -/
def buildTransaction (opts : BuildOpts) : Except JsError (Option BuiltTx) :=
  match byFamily opts.family with
  | none => Except.error JsError.typeErrorNotAFunction
  | some FamilyBuilder.bitcoinFamily => (bitcoin opts).map (Option.map BuiltTx.btc)
  | some FamilyBuilder.ethereumFamily => (ethereum opts).map (Option.map BuiltTx.eth)

/-- Unfolding of `mergeOps` to its append/filter/sort form. -/
theorem mergeOps_def (existing newFetched : List Operation) :
    mergeOps existing newFetched =
      (existing ++ newFetched.filter
        (fun o => !((existing.map (fun x => x.id)).contains o.id))).insertionSort opDateGe :=
  rfl

/-- The merge result is a permutation of the existing operations followed by
the id-filtered newly fetched ones. -/
theorem mergeOps_perm (existing newFetched : List Operation) :
    List.Perm (mergeOps existing newFetched)
      (existing ++ newFetched.filter
        (fun o => !((existing.map (fun x => x.id)).contains o.id))) :=
  List.perm_insertionSort opDateGe _

/-- The merge result is sorted (non-strictly) descending by date. -/
theorem sorted_mergeOps (existing newFetched : List Operation) :
    List.Sorted opDateGe (mergeOps existing newFetched) :=
  List.sorted_insertionSort opDateGe _

/-- Every fetched operation's id occurs among the ids of the merge result. -/
theorem mem_id_mergeOps {existing newFetched : List Operation} {o : Operation}
    (ho : o ∈ newFetched) :
    o.id ∈ (mergeOps existing newFetched).map (fun x => x.id) := by
  by_cases h : o.id ∈ existing.map (fun x => x.id)
  · obtain ⟨o2, ho2, hid⟩ := List.mem_map.mp h
    exact List.mem_map.mpr ⟨o2, (mergeOps_perm existing newFetched).mem_iff.mpr
      (List.mem_append_left _ ho2), hid⟩
  · refine List.mem_map.mpr ⟨o, (mergeOps_perm existing newFetched).mem_iff.mpr
      (List.mem_append_right _ ?_), rfl⟩
    refine List.mem_filter.mpr ⟨ho, ?_⟩
    simpa [List.elem_iff] using h

/-- Re-merging the same fetched batch is the identity. -/
theorem mergeOps_idempotent (existing newFetched : List Operation) :
    mergeOps (mergeOps existing newFetched) newFetched = mergeOps existing newFetched := by
  have hfilter :
      newFetched.filter
        (fun o => !(((mergeOps existing newFetched).map (fun x => x.id)).contains o.id)) = [] := by
    refine List.filter_eq_nil_iff.mpr ?_
    intro o ho
    simpa [List.elem_iff] using @mem_id_mergeOps existing newFetched o ho
  rw [mergeOps_def (mergeOps existing newFetched) newFetched, hfilter, List.append_nil]
  exact (sorted_mergeOps existing newFetched).insertionSort_eq

/-- C1: the sync merge is idempotent — for every account operation list and
every list of remote operations, merging the remote list twice yields the
same operation list as merging it once; existing entries take precedence on
id collision (every existing operation survives the merge, and every merged
operation is either an existing one or a fetched one whose id does not occur
among the existing ids). -/
theorem C1_merge_idempotent (existing newFetched : List Operation) :
    mergeOps (mergeOps existing newFetched) newFetched = mergeOps existing newFetched ∧
    (∀ o ∈ existing, o ∈ mergeOps existing newFetched) ∧
    (∀ o ∈ mergeOps existing newFetched,
      o ∈ existing ∨ (o ∈ newFetched ∧ o.id ∉ existing.map (fun x => x.id))) := by
  refine ⟨mergeOps_idempotent existing newFetched, ?_, ?_⟩
  · intro o ho
    exact (mergeOps_perm existing newFetched).mem_iff.mpr (List.mem_append_left _ ho)
  · intro o ho
    rcases List.mem_append.mp ((mergeOps_perm existing newFetched).mem_iff.mp ho) with h | h
    · exact Or.inl h
    · obtain ⟨hmem, hp⟩ := List.mem_filter.mp h
      refine Or.inr ⟨hmem, ?_⟩
      simpa [List.elem_iff] using hp

/-- Witness for C1 at a concrete account operation list and remote batch. -/
theorem C1_witness :
    mergeOps (mergeOps [wOp1] [wOp2]) [wOp2] = mergeOps [wOp1] [wOp2] ∧
    wOp1 ∈ mergeOps [wOp1] [wOp2] ∧
    (wOp1 ∈ [wOp1] ∨ (wOp1 ∈ [wOp2] ∧ wOp1.id ∉ [wOp1].map (fun x => x.id))) :=
  ⟨(C1_merge_idempotent [wOp1] [wOp2]).1,
   (C1_merge_idempotent [wOp1] [wOp2]).2.1 wOp1 (by decide),
   (C1_merge_idempotent [wOp1] [wOp2]).2.2 wOp1
     ((C1_merge_idempotent [wOp1] [wOp2]).2.1 wOp1 (by decide))⟩

/-- C2 counterexample: when the newly fetched list repeats an operation, the
merge output is neither strictly descending by date nor free of duplicate
ids, refuting the claim exactly where it says it covers duplicate ids and
equal dates in the fetched list. -/
theorem C2_counterexample :
    ¬ (List.Pairwise (fun a b => b.date < a.date) (mergeOps [] [cDupOp, cDupOp]) ∧
       ((mergeOps [] [cDupOp, cDupOp]).map (fun x => x.id)).Nodup) := by
  decide

/-- C2 amended: after any merge the operation list is sorted descending by
date (non-strictly; equal dates stay adjacent), and provided each input list
contains no duplicate ids, the output contains no duplicate ids.  Strict
descent and unconditional id-uniqueness fail when the fetched list itself
repeats an id or a date. -/
theorem C2_merge_sorted_nodup (existing newFetched : List Operation) :
    List.Sorted opDateGe (mergeOps existing newFetched) ∧
    ((existing.map (fun x => x.id)).Nodup → (newFetched.map (fun x => x.id)).Nodup →
      ((mergeOps existing newFetched).map (fun x => x.id)).Nodup) := by
  refine ⟨sorted_mergeOps existing newFetched, ?_⟩
  intro he hf
  have hperm := (mergeOps_perm existing newFetched).map (fun x => x.id)
  refine hperm.symm.nodup ?_
  rw [List.map_append, List.nodup_append]
  refine ⟨he, ?_, ?_⟩
  · exact ((List.filter_sublist newFetched).map (fun x => x.id)).nodup hf
  · intro a hae haf
    obtain ⟨o, hof, hid⟩ := List.mem_map.mp haf
    obtain ⟨homem, hp⟩ := List.mem_filter.mp hof
    have hnot : o.id ∉ existing.map (fun x => x.id) := by
      simpa [List.elem_iff] using hp
    exact hnot (hid ▸ hae)

/-- Truthiness of an optional sequence number is false exactly when the
number is missing or zero. -/
theorem tsnTruthy_eq_false_iff (t : Option Nat) : tsnTruthy t = false ↔ t.getD 0 = 0 := by
  cases t <;> simp [tsnTruthy]

/-- Characterization of the pending-operation filter: a pending operation is
kept exactly when no merged operation shares its hash and the newest merged
operation exists with a nonzero sequence number strictly below the pending
operation's own nonzero sequence number. -/
theorem keptPending_iff (ops : List Operation) (oo : Operation) :
    keptPending ops oo = true ↔
      (∀ op ∈ ops, oo.hash ≠ op.hash) ∧
      ∃ last, ops.head? = some last ∧
        ∃ lt ot, last.transactionSequenceNumber = some lt ∧
          oo.transactionSequenceNumber = some ot ∧ lt ≠ 0 ∧ ot ≠ 0 ∧ lt < ot := by
  constructor
  · intro hk
    unfold keptPending at hk
    cases hh : ops.head? with
    | none =>
      simp only [hh, Bool.and_false] at hk
      exact Bool.noConfusion hk
    | some last =>
      simp only [hh] at hk
      cases hlt : last.transactionSequenceNumber with
      | none =>
        simp only [hlt, tsnTruthy, Bool.false_and, Bool.and_false] at hk
        exact Bool.noConfusion hk
      | some lt =>
        cases hot : oo.transactionSequenceNumber with
        | none =>
          simp only [hlt, hot, tsnTruthy, Bool.false_and, Bool.and_false] at hk
          exact Bool.noConfusion hk
        | some ot =>
          simp only [hlt, hot, tsnTruthy, jsGtNat, Bool.and_eq_true, Bool.not_eq_true',
            List.any_eq_false, bne_iff_ne, ne_eq, decide_eq_true_eq, beq_iff_eq] at hk
          obtain ⟨hhash, ⟨hlt0, hot0⟩, hgt⟩ := hk
          exact ⟨hhash, last, rfl, lt, ot, hlt, rfl, hlt0, hot0, hgt⟩
  · rintro ⟨hhash, last, hh, lt, ot, hlt, hot, hlt0, hot0, hgt⟩
    unfold keptPending
    simp only [hh, hlt, hot, tsnTruthy, jsGtNat, Bool.and_eq_true, Bool.not_eq_true',
      List.any_eq_false, bne_iff_ne, ne_eq, decide_eq_true_eq, beq_iff_eq]
    exact ⟨hhash, ⟨hlt0, hot0⟩, hgt⟩

/-- Witness for C2 at concrete duplicate-free inputs. -/
theorem C2_witness :
    List.Sorted opDateGe (mergeOps [wOp1] [wOp2]) ∧
    ((mergeOps [wOp1] [wOp2]).map (fun x => x.id)).Nodup :=
  ⟨(C2_merge_sorted_nodup [wOp1] [wOp2]).1,
   (C2_merge_sorted_nodup [wOp1] [wOp2]).2 (by decide) (by decide)⟩

/-- C3 counterexample: a pending operation with sequence number 5 and a
fresh hash, against a merged list whose newest confirmed operation has
sequence number 0.  The claimed drop condition (hash match, or sequence
number not strictly greater than the newest confirmed one's) does not hold,
yet the code drops the operation, because the filter also requires the
newest confirmed sequence number to be truthy. -/
theorem C3_counterexample :
    keptPending [cConfirmedTsn0] cPending5 = false ∧
    specDropCondition [cConfirmedTsn0] cPending5 = false := by
  decide

/-- C3 amended: after the sync merge, a pending operation is kept iff no
merged operation shares its hash, a newest merged operation exists, both its
own and the newest confirmed sequence numbers are present and nonzero, and
its sequence number is strictly greater than the newest confirmed one —
equivalently it is dropped when its hash appears among merged operations,
when there is no newest confirmed operation, when either sequence number is
missing or zero, or when its sequence number does not strictly exceed the
newest confirmed one.  In particular a hash match drops it regardless of
sequence numbers, and with a newest confirmed sequence number `n` it is
dropped whenever its own sequence number `m` satisfies `m ≤ n`. -/
theorem C3_pending_drop (ops : List Operation) (oo : Operation) :
    (keptPending ops oo = true ↔
      (∀ op ∈ ops, oo.hash ≠ op.hash) ∧
      ∃ last, ops.head? = some last ∧
        ∃ lt ot, last.transactionSequenceNumber = some lt ∧
          oo.transactionSequenceNumber = some ot ∧ lt ≠ 0 ∧ ot ≠ 0 ∧ lt < ot) ∧
    ((∃ op ∈ ops, oo.hash = op.hash) → keptPending ops oo = false) ∧
    (∀ last n m, ops.head? = some last →
      last.transactionSequenceNumber = some n →
      oo.transactionSequenceNumber = some m → m ≤ n →
      keptPending ops oo = false) := by
  refine ⟨keptPending_iff ops oo, ?_, ?_⟩
  · rintro ⟨op, hop, heq⟩
    cases hk : keptPending ops oo with
    | false => rfl
    | true =>
      obtain ⟨hhash, -⟩ := (keptPending_iff ops oo).mp hk
      exact absurd heq (hhash op hop)
  · intro last n m hh hn hm hmn
    cases hk : keptPending ops oo with
    | false => rfl
    | true =>
      obtain ⟨-, last2, hh2, lt, ot, hlt, hot, -, -, hgt⟩ := (keptPending_iff ops oo).mp hk
      rw [hh] at hh2
      cases hh2
      rw [hn] at hlt
      cases hlt
      rw [hm] at hot
      cases hot
      omega

/-- Witness for C3 at concrete inputs: a pending operation with sequence
number 5 is kept over a newest confirmed operation with sequence number 2, a
pending operation whose hash matches a merged operation is dropped, and a
pending operation with sequence number 2 is dropped once the newest
confirmed operation has sequence number 3. -/
theorem C3_witness :
    keptPending [wOp1] cPending5 = true ∧
    keptPending [wOp1] wOp1 = false ∧
    keptPending [wOp2] wOp1 = false :=
  ⟨(C3_pending_drop [wOp1] cPending5).1.mpr
      ⟨by decide, wOp1, rfl, 2, 5, rfl, rfl, by decide, by decide, by decide⟩,
   (C3_pending_drop [wOp1] wOp1).2.1 ⟨wOp1, by decide, rfl⟩,
   (C3_pending_drop [wOp2] wOp1).2.2 wOp2 3 2 rfl rfl rfl (by decide)⟩

/-- C10: a pending operation is dropped when the merged confirmed list is
empty, when the newest merged operation's sequence number is missing or
zero, or when its own sequence number is missing or zero; every pending
operation retained by the sync update was already pending and passes the
filter, which requires a newest confirmed operation with a truthy sequence
number and a truthy sequence number of its own. -/
theorem C10_pending_truthiness (ops : List Operation) (oo : Operation) :
    (ops = [] → keptPending ops oo = false) ∧
    (∀ last, ops.head? = some last → last.transactionSequenceNumber.getD 0 = 0 →
      keptPending ops oo = false) ∧
    (oo.transactionSequenceNumber.getD 0 = 0 → keptPending ops oo = false) ∧
    (keptPending ops oo = true →
      ops ≠ [] ∧ tsnTruthy oo.transactionSequenceNumber = true ∧
        ∃ last, ops.head? = some last ∧
          tsnTruthy last.transactionSequenceNumber = true) ∧
    (∀ balance maxLV txs now a,
      oo ∈ (startSyncFoundUpdate balance maxLV txs now a).pendingOperations →
        keptPending (mergeOps a.operations (txs.map (txToOperation a))) oo = true ∧
        oo ∈ a.pendingOperations) := by
  refine ⟨?_, ?_, ?_, ?_, ?_⟩
  · rintro rfl
    rfl
  · intro last hh hz
    cases hk : keptPending ops oo with
    | false => rfl
    | true =>
      obtain ⟨-, last2, hh2, lt, ot, hlt, -, hlt0, -, -⟩ := (keptPending_iff ops oo).mp hk
      rw [hh] at hh2
      cases hh2
      rw [hlt] at hz
      exact absurd hz hlt0
  · intro hz
    cases hk : keptPending ops oo with
    | false => rfl
    | true =>
      obtain ⟨-, last2, -, lt, ot, -, hot, -, hot0, -⟩ := (keptPending_iff ops oo).mp hk
      rw [hot] at hz
      exact absurd hz hot0
  · intro hk
    obtain ⟨-, last, hh, lt, ot, hlt, hot, hlt0, hot0, -⟩ := (keptPending_iff ops oo).mp hk
    refine ⟨?_, ?_, last, hh, ?_⟩
    · intro he
      rw [he] at hh
      exact Option.noConfusion hh
    · simp [hot, tsnTruthy, hot0]
    · simp [hlt, tsnTruthy, hlt0]
  · intro balance maxLV txs now a hmem
    have hmem2 : oo ∈ a.pendingOperations.filter
        (fun x => keptPending (mergeOps a.operations (txs.map (txToOperation a))) x) := by
      simpa [startSyncFoundUpdate] using hmem
    obtain ⟨hin, hkept⟩ := List.mem_filter.mp hmem2
    exact ⟨hkept, hin⟩

/-- Witness for C10 at concrete inputs: with an empty merged list the
pending operation is dropped, a zero newest confirmed sequence number drops
it, a zero own sequence number drops it, and the concrete sync update
retains only pending operations that pass the filter. -/
theorem C10_witness :
    keptPending [] cPending5 = false ∧
    keptPending [cConfirmedTsn0] wOp2 = false ∧
    keptPending [wOp1] cConfirmedTsn0 = false ∧
    (keptPending (mergeOps wAccount.operations ([].map (txToOperation wAccount)))
        cPending5 = true ∧
      cPending5 ∈ wAccount.pendingOperations) :=
  ⟨(C10_pending_truthiness [] cPending5).1 rfl,
   (C10_pending_truthiness [cConfirmedTsn0] wOp2).2.1 cConfirmedTsn0 rfl (by decide),
   (C10_pending_truthiness [wOp1] cConfirmedTsn0).2.2.1 (by decide),
   (C10_pending_truthiness (mergeOps wAccount.operations ([].map (txToOperation wAccount)))
       cPending5).2.2.2.2 100 50 [] 99 wAccount (by decide)⟩

/-- C8: the state update produced when the account has no on-chain footprint
changes only `lastSyncDate`; every other field of the account is
unchanged. -/
theorem C8_not_found_frame (now : Int) (a : Account) :
    (startSyncNotFoundUpdate now a).lastSyncDate = now ∧
    (startSyncNotFoundUpdate now a).id = a.id ∧
    (startSyncNotFoundUpdate now a).seedIdentifier = a.seedIdentifier ∧
    (startSyncNotFoundUpdate now a).derivationMode = a.derivationMode ∧
    (startSyncNotFoundUpdate now a).name = a.name ∧
    (startSyncNotFoundUpdate now a).freshAddress = a.freshAddress ∧
    (startSyncNotFoundUpdate now a).freshAddressPath = a.freshAddressPath ∧
    (startSyncNotFoundUpdate now a).balance = a.balance ∧
    (startSyncNotFoundUpdate now a).blockHeight = a.blockHeight ∧
    (startSyncNotFoundUpdate now a).index = a.index ∧
    (startSyncNotFoundUpdate now a).operations = a.operations ∧
    (startSyncNotFoundUpdate now a).pendingOperations = a.pendingOperations := by
  refine ⟨rfl, rfl, rfl, rfl, rfl, rfl, rfl, rfl, rfl, rfl, rfl, rfl⟩

/-- C5: fee-related errors follow the precedence missing fee →
`FeeNotLoaded`, zero fee → `FeeRequired`, otherwise `NotEnoughBalance`
exactly when `totalSpent` exceeds `balance − reserve`; independently the
`FeeTooHigh` warning is set exactly when the amount is positive and ten
times the fee exceeds it; `estimatedFees` and `totalSpent` are the fee
(defaulting to zero) and the amount plus the fee. -/
theorem C5_transaction_status (balance reserve : Int) (freshAddress : String)
    (fee : Option Int) (amount : Int) (recipient : String)
    (recipientIsNew recipientValid : Bool) :
    (fee = none →
      (getTransactionStatus balance reserve freshAddress fee amount recipient
        recipientIsNew recipientValid).feeError = some TxErr.feeNotLoaded ∧
      (getTransactionStatus balance reserve freshAddress fee amount recipient
        recipientIsNew recipientValid).amountError = none) ∧
    (fee = some 0 →
      (getTransactionStatus balance reserve freshAddress fee amount recipient
        recipientIsNew recipientValid).feeError = some TxErr.feeRequired ∧
      (getTransactionStatus balance reserve freshAddress fee amount recipient
        recipientIsNew recipientValid).amountError = none) ∧
    (∀ f, fee = some f → f ≠ 0 →
      (getTransactionStatus balance reserve freshAddress fee amount recipient
        recipientIsNew recipientValid).feeError = none ∧
      ((getTransactionStatus balance reserve freshAddress fee amount recipient
        recipientIsNew recipientValid).amountError = some TxErr.notEnoughBalance ↔
        balance - reserve < amount + f)) ∧
    ((getTransactionStatus balance reserve freshAddress fee amount recipient
        recipientIsNew recipientValid).feeTooHighWarning = true ↔
      0 < amount ∧ amount < fee.getD 0 * 10) ∧
    (getTransactionStatus balance reserve freshAddress fee amount recipient
      recipientIsNew recipientValid).estimatedFees = fee.getD 0 ∧
    (getTransactionStatus balance reserve freshAddress fee amount recipient
      recipientIsNew recipientValid).totalSpent = amount + fee.getD 0 := by
  refine ⟨?_, ?_, ?_, ?_, rfl, rfl⟩
  · rintro rfl
    exact ⟨rfl, rfl⟩
  · rintro rfl
    exact ⟨rfl, rfl⟩
  · rintro f rfl hf0
    constructor
    · simp only [getTransactionStatus, hf0, if_false]
      split_ifs <;> rfl
    · simp only [getTransactionStatus, hf0, if_false, Option.getD_some]
      split_ifs with h1 h2 <;> simp [h1]
  · simp [getTransactionStatus]

/-- Witness for C5: fee 11 on amount 100 raises the `FeeTooHigh` warning,
and with ample balance a nonzero fee yields no fee error. -/
theorem C5_witness :
    (getTransactionStatus 1000 20 "rFresh" (some 11) 100 "rDest" false true).feeTooHighWarning
      = true ∧
    (getTransactionStatus 1000 20 "rFresh" (some 11) 100 "rDest" false true).feeError = none :=
  ⟨((C5_transaction_status 1000 20 "rFresh" (some 11) 100 "rDest" false true).2.2.2.1).mpr
      (by decide),
   ((C5_transaction_status 1000 20 "rFresh" (some 11) 100 "rDest" false true).2.2.1 11 rfl
      (by decide)).1⟩

/-- Unfolding of one step of the scan loop. -/
theorem scanIndices_succ (derivationMode : String) (supportsIndex : Nat → Bool)
    (accountInfo : Nat → Option Int) (index fuel : Nat) :
    scanIndices derivationMode supportsIndex accountInfo index (fuel + 1) =
      if supportsIndex index then
        ScanStep.probe index ::
          (match accountInfo index with
           | none =>
             if derivationMode = "" then [ScanStep.emitPlaceholder index 0] else []
           | some balance =>
             ScanStep.emitDiscovered index balance ::
               scanIndices derivationMode supportsIndex accountInfo (index + 1) fuel)
      else scanIndices derivationMode supportsIndex accountInfo (index + 1) fuel :=
  rfl

/-- Placeholder events of the scan loop only ever carry the canonical
(empty-string) derivation mode and a zero balance. -/
theorem scanIndices_placeholder_canonical (derivationMode : String)
    (supportsIndex : Nat → Bool) (accountInfo : Nat → Option Int) :
    ∀ fuel index i b,
      ScanStep.emitPlaceholder i b ∈
          scanIndices derivationMode supportsIndex accountInfo index fuel →
        derivationMode = "" ∧ b = 0 := by
  intro fuel
  induction fuel with
  | zero =>
    intro index i b h
    simp [scanIndices] at h
  | succ fuel ih =>
    intro index i b h
    rw [scanIndices_succ] at h
    by_cases hs : supportsIndex index
    · simp only [hs, if_true] at h
      rcases List.mem_cons.mp h with h1 | h2
      · exact ScanStep.noConfusion h1
      · cases hinfo : accountInfo index with
        | none =>
          rw [hinfo] at h2
          by_cases hm : derivationMode = ""
          · simp only [hm, if_true] at h2
            rcases List.mem_singleton.mp h2 with h3
            cases h3
            exact ⟨hm, rfl⟩
          · simp only [hm, if_false] at h2
            exact absurd h2 (List.not_mem_nil _)
        | some bal =>
          rw [hinfo] at h2
          rcases List.mem_cons.mp h2 with h3 | h4
          · exact ScanStep.noConfusion h3
          · exact ih _ _ _ h4
    · simp only [hs, if_false] at h
      exact ih _ _ _ h

/-- C6: the scan emits placeholder accounts (with zero balance) only for the
canonical derivation mode, and for any mode whose index 0 is supported but
has no on-chain footprint the whole per-mode scan probes only index 0 and
emits exactly the canonical placeholder (no event for other modes). -/
theorem C6_scan_placeholder (derivationMode : String) (isIterable : Bool)
    (supportsIndex : Nat → Bool) (accountInfo : Nat → Option Int) :
    (∀ i b,
      ScanStep.emitPlaceholder i b ∈
          scanMode derivationMode isIterable supportsIndex accountInfo →
        derivationMode = "" ∧ b = 0) ∧
    (supportsIndex 0 = true → accountInfo 0 = none →
      scanMode derivationMode isIterable supportsIndex accountInfo =
        ScanStep.probe 0 ::
          (if derivationMode = "" then [ScanStep.emitPlaceholder 0 0] else [])) := by
  constructor
  · intro i b h
    exact scanIndices_placeholder_canonical derivationMode supportsIndex accountInfo _ 0 i b h
  · intro h0 hinfo
    unfold scanMode
    cases isIterable with
    | false =>
      show scanIndices derivationMode supportsIndex accountInfo 0 (0 + 1) = _
      rw [scanIndices_succ, hinfo]
      simp only [h0, if_true]
    | true =>
      show scanIndices derivationMode supportsIndex accountInfo 0 (254 + 1) = _
      rw [scanIndices_succ, hinfo]
      simp only [h0, if_true]

/-- Witness for C6: a canonical-mode scan over a chain with no accounts
probes only index 0 and emits exactly one placeholder event, and that event
is canonical with zero balance. -/
theorem C6_witness :
    scanMode "" true (fun _ => true) (fun _ => none) =
      [ScanStep.probe 0, ScanStep.emitPlaceholder 0 0] ∧
    ("" = "" ∧ (0 : Int) = 0) := by
  refine ⟨?_, ?_⟩
  · have h := (C6_scan_placeholder "" true (fun _ => true) (fun _ => none)).2 rfl rfl
    simpa using h
  · refine (C6_scan_placeholder "" true (fun _ => true) (fun _ => none)).1 0 0 ?_
    have h := (C6_scan_placeholder "" true (fun _ => true) (fun _ => none)).2 rfl rfl
    rw [h]
    simp

/-- C7 counterexample: dispatching a draft whose family is `ripple` (not a
key of `byFamily`) fails with the untyped TypeError of calling `undefined`,
which is not the typed `UnsupportedFamily` error the claim names. -/
theorem C7_counterexample :
    buildTransaction cRippleOpts = Except.error JsError.typeErrorNotAFunction ∧
    JsError.typeErrorNotAFunction ≠ JsError.unsupportedFamily := by
  decide

/-- C7 amended: the draft's family selects the matching variant builder
(`bitcoin` or `ethereum`), and every unregistered family fails — but with
the untyped TypeError of invoking the `undefined` result of the lookup, not
with a typed `UnsupportedFamily` error. -/
theorem C7_family_dispatch (opts : BuildOpts) :
    (opts.family = "bitcoin" →
      buildTransaction opts = (bitcoin opts).map (Option.map BuiltTx.btc)) ∧
    (opts.family = "ethereum" →
      buildTransaction opts = (ethereum opts).map (Option.map BuiltTx.eth)) ∧
    (opts.family ≠ "bitcoin" → opts.family ≠ "ethereum" →
      buildTransaction opts = Except.error JsError.typeErrorNotAFunction) := by
  refine ⟨?_, ?_, ?_⟩
  · intro h
    simp [buildTransaction, byFamily, h]
  · intro h
    simp [buildTransaction, byFamily, h]
  · intro h1 h2
    simp [buildTransaction, byFamily, h1, h2]

/-- Witness for C7: the bitcoin family dispatches to the bitcoin builder and
the ripple family hits the TypeError branch. -/
theorem C7_witness :
    buildTransaction cZeroFeeOpts = (bitcoin cZeroFeeOpts).map (Option.map BuiltTx.btc) ∧
    buildTransaction cRippleOpts = Except.error JsError.typeErrorNotAFunction :=
  ⟨(C7_family_dispatch cZeroFeeOpts).1 rfl,
   (C7_family_dispatch cRippleOpts).2.2 (by decide) (by decide)⟩

/-- The tail of the bitcoin builder never throws `FeeNotLoaded`. -/
theorem bitcoinRest_ne_feeNotLoaded (cancelAt : Option Nat) (k : Nat) (tx : BtcTx) :
    bitcoinRest cancelAt k tx ≠ Except.error JsError.feeNotLoaded := by
  unfold bitcoinRest
  split_ifs <;> simp

/-- The tail of the ethereum builder never throws `FeeNotLoaded`. -/
theorem ethereumRest_ne_feeNotLoaded (cancelAt : Option Nat) (k : Nat) (tx : EthTx) :
    ethereumRest cancelAt k tx ≠ Except.error JsError.feeNotLoaded := by
  unfold ethereumRest
  split_ifs <;> simp

/-- The only error `amount256` can produce is the range error. -/
theorem amount256_error (amount : Option Int) (e : JsError)
    (h : amount256 amount = Except.error e) : e = JsError.rangeError := by
  simp only [amount256] at h
  split_ifs at h
  cases h
  rfl

/-- The token transfer data construction never throws `FeeNotLoaded`. -/
theorem tokenTransferData_ne_feeNotLoaded (recipient : String) (amount : Option Int) :
    tokenTransferData recipient amount ≠ Except.error JsError.feeNotLoaded := by
  simp only [tokenTransferData]
  split_ifs with h
  · cases ha : amount256 amount with
    | ok v => simp [ha]
    | error e =>
      have he := amount256_error amount e ha
      simp [ha, he]
  · simp

/-- The token branch of the ethereum builder never throws `FeeNotLoaded`. -/
theorem ethereumTokenBranch_ne_feeNotLoaded (cancelAt : Option Nat)
    (ta : TokenAccountM) (t : TransactionM) (gl gp : Option Int) :
    ethereumTokenBranch cancelAt ta t gl gp ≠ Except.error JsError.feeNotLoaded := by
  unfold ethereumTokenBranch
  cases htd : tokenTransferData t.recipient
      (if t.useAllAmount then some ta.balance else jsToBigNum t.amount) with
  | ok data => simpa [htd] using ethereumRest_ne_feeNotLoaded cancelAt 2 _
  | error e =>
    have := tokenTransferData_ne_feeNotLoaded t.recipient
      (if t.useAllAmount then some ta.balance else jsToBigNum t.amount)
    rw [htd] at this
    simpa [htd] using this

/-- C9 counterexample: a draft whose `feePerByte` is the BigNumber zero does
not make the bitcoin builder throw `FeeNotLoaded` (a BigNumber object is
truthy), and a draft whose gas price and gas limit are the BigNumber zero
does not make the ethereum builder throw `FeeNotLoaded`. -/
theorem C9_counterexample :
    cZeroFeeOpts.transaction.feePerByte = some (BigOrStr.big 0) ∧
    bitcoin cZeroFeeOpts ≠ Except.error JsError.feeNotLoaded ∧
    cZeroGasOpts.transaction.gasPrice = some (BigOrStr.big 0) ∧
    cZeroGasOpts.transaction.gasLimit = some (BigOrStr.big 0) ∧
    ethereum cZeroGasOpts ≠ Except.error JsError.feeNotLoaded := by
  decide

/-- C9 amended: presence of the fee fields is tested by JavaScript
truthiness, under which a BigNumber — including BigNumber(0) — and any
non-empty string — including "0" — count as present: the bitcoin builder
throws `FeeNotLoaded` exactly when the recipient is valid and `feePerByte`
is falsy (missing or an empty string), and the ethereum builder exactly when
the recipient is valid and `gasPrice` or `gasLimit` is falsy; a zero fee
represented as BigNumber(0) or "0" is treated as present. -/
theorem C9_fee_truthiness (opts : BuildOpts) :
    (bitcoin opts = Except.error JsError.feeNotLoaded ↔
      opts.recipientValid = true ∧ truthyF opts.transaction.feePerByte = false) ∧
    (ethereum opts = Except.error JsError.feeNotLoaded ↔
      opts.recipientValid = true ∧
        (truthyF opts.transaction.gasPrice = false ∨
          truthyF opts.transaction.gasLimit = false)) ∧
    truthyF (some (BigOrStr.big 0)) = true ∧
    truthyF (some (BigOrStr.str "0")) = true ∧
    truthyF none = false := by
  refine ⟨?_, ?_, rfl, by decide, rfl⟩
  · cases hv : opts.recipientValid with
    | false => simp [bitcoin, hv]
    | true =>
      cases hf : truthyF opts.transaction.feePerByte with
      | false => simp [bitcoin, hv, hf]
      | true =>
        simp only [bitcoin, hv, hf, Bool.not_true, Bool.not_false, if_true, if_false,
          Bool.false_eq_true, and_false, iff_false]
        split_ifs <;> simp [bitcoinRest_ne_feeNotLoaded]
  · cases hv : opts.recipientValid with
    | false => simp [ethereum, hv]
    | true =>
      cases hgp : truthyF opts.transaction.gasPrice with
      | false => simp [ethereum, hv, hgp]
      | true =>
        cases hgl : truthyF opts.transaction.gasLimit with
        | false => simp [ethereum, hv, hgp, hgl]
        | true =>
          simp only [ethereum, hv, hgp, hgl, Bool.not_true, Bool.not_false, Bool.or_self,
            if_true, if_false, Bool.false_eq_true, or_self, and_false, iff_false]
          cases hta : opts.tokenAccount with
          | some ta =>
            simp only [hta]
            split_ifs <;>
              simp [ethereumTokenBranch_ne_feeNotLoaded, ethereumRest_ne_feeNotLoaded]
          | none =>
            simp only [hta]
            split_ifs <;>
              simp [ethereumRest_ne_feeNotLoaded]

/-- Witness for C9: the zero-BigNumber-fee drafts are accepted by both
builders (no `FeeNotLoaded`), while removing the fee field makes the bitcoin
builder throw it. -/
theorem C9_witness :
    bitcoin cZeroFeeOpts ≠ Except.error JsError.feeNotLoaded ∧
    bitcoin { cZeroFeeOpts with
        transaction := { cZeroFeeOpts.transaction with feePerByte := none } } =
      Except.error JsError.feeNotLoaded :=
  ⟨fun h => by
      have h2 := ((C9_fee_truthiness cZeroFeeOpts).1.mp h).2
      exact absurd h2 (by decide),
   (C9_fee_truthiness { cZeroFeeOpts with
        transaction := { cZeroFeeOpts.transaction with feePerByte := none } }).1.mpr
      ⟨rfl, rfl⟩⟩

/-- Pairing nibbles into bytes halves the length. -/
theorem hexPairsToBytes_length : ∀ l : List Nat, (hexPairsToBytes l).length = l.length / 2
  | [] => rfl
  | [_] => by simp [hexPairsToBytes]
  | _ :: _ :: rest => by
    simp only [hexPairsToBytes, List.length_cons, hexPairsToBytes_length rest]
    omega

/-- A number below `16 ^ k` has at most `k` hex digits (for `k ≥ 1`). -/
theorem hexDigitsAux_length_le :
    ∀ fuel n k : Nat, n < fuel → 1 ≤ k → n < 16 ^ k → (hexDigitsAux fuel n).length ≤ k
  | 0, _, _ => by
    intro h
    omega
  | fuel + 1, n, k => by
    intro hf hk hnk
    by_cases h16 : n < 16
    · simp only [hexDigitsAux, h16, if_true, List.length_singleton]
      omega
    · have hn0 : 0 < n := by omega
      have hk2 : 2 ≤ k := by
        by_contra hlt
        have hk1 : k = 1 := by omega
        rw [hk1, pow_one] at hnk
        exact h16 hnk
      have hdiv : n / 16 < 16 ^ (k - 1) := by
        rw [Nat.div_lt_iff_lt_mul (by norm_num : (0 : Nat) < 16)]
        calc n < 16 ^ k := hnk
          _ = 16 ^ (k - 1) * 16 := by
            rw [← pow_succ]
            congr 1
            omega
      have hfu : n / 16 < fuel := by
        have hlt := Nat.div_lt_self hn0 (by norm_num : (1 : Nat) < 16)
        omega
      have ih := hexDigitsAux_length_le fuel (n / 16) (k - 1) hfu (by omega) hdiv
      simp only [hexDigitsAux, h16, if_false, List.length_append, List.length_singleton]
      omega

/-- `hexDigits` of a number below `16 ^ k` has at most `k` digits. -/
theorem hexDigits_length_le (n k : Nat) (hk : 1 ≤ k) (h : n < 16 ^ k) :
    (hexDigits n).length ≤ k :=
  hexDigitsAux_length_le (n + 1) n k (Nat.lt_succ_self n) hk h

/-- The byte buffer of a non-negative amount below `2 ^ 256` fits in 32
bytes. -/
theorem amountBuf_length_le (n : Int) (h0 : 0 ≤ n) (hb : n < 2 ^ 256) :
    (amountBuf (some n)).length ≤ 32 := by
  have h64 : n.toNat < 16 ^ 64 := by
    have hpow : (16 : Nat) ^ 64 = 2 ^ 256 := by
      rw [show (16 : Nat) = 2 ^ 4 from by norm_num, ← pow_mul]
    rw [hpow]
    omega
  have hL := hexDigits_length_le n.toNat 64 (by norm_num) h64
  have hbuf : amountBuf (some n) = hexPairsToBytes (padHexEven (hexDigits n.toNat)) := by
    simp [amountBuf, h0]
  rw [hbuf, hexPairsToBytes_length]
  unfold padHexEven
  split_ifs with hpar
  · omega
  · simp only [List.length_cons]
    omega

/-- For a non-negative amount below `2 ^ 256` the 32-byte field is built
without a range error and has length exactly 32. -/
theorem amount256_ok (n : Int) (h0 : 0 ≤ n) (hb : n < 2 ^ 256) :
    amount256 (some n) =
      Except.ok (List.replicate (32 - (amountBuf (some n)).length) 0 ++ amountBuf (some n)) ∧
    (List.replicate (32 - (amountBuf (some n)).length) 0 ++ amountBuf (some n)).length = 32 := by
  have hle := amountBuf_length_le n h0 hb
  constructor
  · simp [amount256, hle]
  · simp only [List.length_append, List.length_replicate]
    omega

/-- C4 counterexample: a recipient that decodes to 21 bytes makes the token
payload construction fail with the untyped invariant violation
`recipient is invalid`, which is not the typed `EncodingError` the claim
names. -/
theorem C4_counterexample :
    tokenTransferData cRecipient21 (some 255) =
      Except.error (JsError.invariantViolation "recipient is invalid") ∧
    JsError.invariantViolation "recipient is invalid" ≠ JsError.encodingError := by
  decide

/-- C4 amended: for an Ethereum token transfer the contract-call payload is
the 4-byte transfer selector, the recipient as a 32-byte field (a 20-byte
address left-padded with twelve zero bytes), and the amount as a 32-byte
big-endian field; any other decoded address length fails — with the untyped
invariant violation `recipient is invalid`, not a typed `EncodingError`;
an odd hex digit count receives a leading zero nibble before byte packing;
amount 255 encodes as 31 zero bytes followed by `0xFF`; and the ethereum
builder stores exactly this payload as input data while directing a
zero-valued call at the token contract. -/
theorem C4_token_payload (r : String) (n : Int) :
    ((decodeHex (strip0x r.data)).length = 20 → 0 ≤ n → n < 2 ^ 256 →
      ∃ a256, amount256 (some n) = Except.ok a256 ∧ a256.length = 32 ∧
        tokenTransferData r (some n) =
          Except.ok (ethereumTransferMethodID ++
            (List.replicate 12 0 ++ decodeHex (strip0x r.data)) ++ a256)) ∧
    ((decodeHex (strip0x r.data)).length ≠ 20 →
      tokenTransferData r (some n) =
        Except.error (JsError.invariantViolation "recipient is invalid")) ∧
    amount256 (some 255) = Except.ok (List.replicate 31 0 ++ [0xff]) ∧
    (∀ m : Nat, (hexDigits m).length % 2 = 1 →
      padHexEven (hexDigits m) = 0 :: hexDigits m) ∧
    (∀ opts ta data, opts.tokenAccount = some ta → opts.recipientValid = true →
      truthyF opts.transaction.gasPrice = true →
      truthyF opts.transaction.gasLimit = true →
      opts.cancelAt = none →
      tokenTransferData opts.transaction.recipient
          (if opts.transaction.useAllAmount then some ta.balance
           else jsToBigNum opts.transaction.amount) = Except.ok data →
      ethereum opts = Except.ok (some
        { inputData := some data
          wipeTo := none
          sendTo := some (some 0, ta.contractAddress)
          gasLimit := jsToBigNum opts.transaction.gasLimit
          gasPrice := jsToBigNum opts.transaction.gasPrice })) := by
  refine ⟨?_, ?_, by decide, ?_, ?_⟩
  · intro h20 h0 hb
    obtain ⟨hok, hlen⟩ := amount256_ok n h0 hb
    refine ⟨_, hok, hlen, ?_⟩
    have hlen32 : (List.replicate 12 0 ++ decodeHex (strip0x r.data)).length = 32 := by
      simp [h20]
    simp only [tokenTransferData, hlen32, if_true, hok]
  · intro hne
    have hlen32 : ¬ (List.replicate 12 0 ++ decodeHex (strip0x r.data)).length = 32 := by
      simp only [List.length_append, List.length_replicate]
      omega
    simp only [tokenTransferData, hlen32, if_false]
  · intro m hm
    unfold padHexEven
    rw [if_neg (by omega)]
  · intro opts ta data hta hv hgp hgl hc htd
    simp only [ethereum, hv, hgp, hgl, hta, hc, Bool.not_true, Bool.or_self, polled,
      Bool.false_eq_true, if_false, ethereumTokenBranch, htd, ethereumRest]

set_option maxRecDepth 8000 in
/-- Witness for C4: the concrete 20-byte recipient and amount 255 produce
the full 68-byte payload, and the concrete ethereum builder inputs store it
as input data with a zero-valued call at the token contract. -/
theorem C4_witness :
    tokenTransferData cRecipient20 (some 255) =
      Except.ok (ethereumTransferMethodID ++
        (List.replicate 12 0 ++ decodeHex (strip0x cRecipient20.data)) ++
        (List.replicate 31 0 ++ [0xff])) ∧
    ethereum cTokenOpts = Except.ok (some
      { inputData := some (ethereumTransferMethodID ++
          (List.replicate 12 0 ++ decodeHex (strip0x cRecipient20.data)) ++
          (List.replicate 31 0 ++ [0xff]))
        wipeTo := none
        sendTo := some (some 0, "0xC0")
        gasLimit := some 21000
        gasPrice := some 3 }) := by
  have h1 := (C4_token_payload cRecipient20 255).1 (by decide) (by decide) (by decide)
  obtain ⟨a256, hok, hlen, heq⟩ := h1
  have ha : a256 = List.replicate 31 0 ++ [0xff] := by
    have h2 : amount256 (some 255) = Except.ok (List.replicate 31 0 ++ [0xff]) := by decide
    rw [hok] at h2
    injection h2
  constructor
  · rw [← ha]
    exact heq
  · refine (C4_token_payload cRecipient20 255).2.2.2.2 cTokenOpts
      { balance := 500, contractAddress := "0xC0" }
      (ethereumTransferMethodID ++
        (List.replicate 12 0 ++ decodeHex (strip0x cRecipient20.data)) ++
        (List.replicate 31 0 ++ [0xff]))
      rfl rfl rfl rfl rfl ?_
    rw [← ha]
    exact heq

end RippleBridge
